import Mathlib

/-!
Shallow embedding of the leaf-js page-turn library (a TypeScript rewrite of
turn.js) and a verification of its specification claims.

Numbers are modelled as rationals; JavaScript `Math.round` is modelled as
floor of `x + 1/2`.  Transcendental functions (`Math.atan2`, `Math.cos`,
`Math.sin`, `Math.PI`) are uninterpreted: they are supplied through a
`TrigOracle` parameter, since the state-machine claims do not depend on
their values.  Stateful classes are embedded as explicit state records with
state-passing operations; throwing operations return `Except`.
-/

set_option autoImplicit false

namespace Leaf

/-- A 2D point with rational coordinates (models a JS `Point2D`). -/
structure Point2D where
  x : ℚ
  y : ℚ
deriving DecidableEq, Repr

/-- JS `Math.round`: round half toward positive infinity. -/
def jsRound (q : ℚ) : ℤ := ⌊q + 1/2⌋

/-- `Utils.createPoint2D`: build a point with each coordinate rounded to
three decimal places (`Math.round(x * 1000) / 1000`). -/
def createPoint2D (x y : ℚ) : Point2D :=
  { x := (jsRound (x * 1000) : ℚ) / 1000
    y := (jsRound (y * 1000) : ℚ) / 1000 }

/-- The uncached body of `Utils.bezier`: the cubic Bernstein polynomial in
the four control points, followed by `createPoint2D` rounding. -/
def bezierCompute (p1 p2 p3 p4 : Point2D) (t : ℚ) : Point2D :=
  let mum1 := 1 - t
  let mum13 := mum1 * mum1 * mum1
  let mu3 := t * t * t
  createPoint2D
    (mum13 * p1.x + 3 * t * mum1 * mum1 * p2.x + 3 * t * t * mum1 * p3.x + mu3 * p4.x)
    (mum13 * p1.y + 3 * t * mum1 * mum1 * p2.y + 3 * t * t * mum1 * p3.y + mu3 * p4.y)

/-- Memoization key of `Utils.bezier` (the JS code joins the eight
coordinates and `t` into a string; number formatting is injective, so the
tuple itself is a faithful key). -/
structure BezierKey where
  p1 : Point2D
  p2 : Point2D
  p3 : Point2D
  p4 : Point2D
  t : ℚ
deriving DecidableEq, Repr

/-- Evaluate the uncached bezier body on a key. -/
def bezierComputeK (k : BezierKey) : Point2D :=
  bezierCompute k.p1 k.p2 k.p3 k.p4 k.t

/-- The state of `Utils.memoizedBezier` (a `Map` keyed by the argument
string), as an association list. -/
abbrev BezierCache : Type := List (BezierKey × Point2D)

/-- Lookup in the memoization cache (`memoizedBezier.has`/`get`). -/
def cacheLookup (c : BezierCache) (k : BezierKey) : Option Point2D :=
  (List.find? (fun e => decide (e.1 = k)) c).map (fun e => e.2)

/-- `Utils.bezier`: consult the cache; on a miss compute the rounded cubic
point and store it. Returns the point and the updated cache. -/
def bezier (c : BezierCache) (p1 p2 p3 p4 : Point2D) (t : ℚ) :
    Point2D × BezierCache :=
  let k : BezierKey := ⟨p1, p2, p3, p4, t⟩
  match cacheLookup c k with
  | some p => (p, c)
  | none =>
      let point := bezierCompute p1 p2 p3 p4 t
      (point, (k, point) :: c)

/-- `Utils.clearMemoization`: empty the cache. -/
def clearMemoization (_c : BezierCache) : BezierCache := []

/-- A cache is valid when every stored entry equals the direct (uncached)
evaluation at its key. -/
def cacheValid (c : BezierCache) : Prop :=
  ∀ e ∈ c, e.2 = bezierComputeK e.1

/-- Cache states that can actually arise in the program: the cache starts
empty, is only written by `bezier` itself, and can be emptied by
`clearMemoization`. -/
inductive CacheReach : BezierCache → Prop where
  | empty : CacheReach []
  | step (c : BezierCache) (p1 p2 p3 p4 : Point2D) (t : ℚ) :
      CacheReach c → CacheReach (bezier c p1 p2 p3 p4 t).2
  | clear (c : BezierCache) : CacheReach (clearMemoization c)

theorem cacheValid_nil : cacheValid [] := by
  intro e he
  simp at he

theorem cacheLookup_mem {c : BezierCache} {k : BezierKey} {p : Point2D}
    (h : cacheLookup c k = some p) : ∃ e ∈ c, e.1 = k ∧ e.2 = p := by
  unfold cacheLookup at h
  cases hf : List.find? (fun e => decide (e.1 = k)) c with
  | none => rw [hf] at h; simp at h
  | some e =>
      rw [hf] at h
      simp at h
      refine ⟨e, List.mem_of_find?_eq_some hf, ?_, h⟩
      have := List.find?_some hf
      simpa using this

/-- On a valid cache, `bezier` returns exactly the direct computation. -/
theorem bezier_eq_compute_of_valid (c : BezierCache)
    (p1 p2 p3 p4 : Point2D) (t : ℚ) (hv : cacheValid c) :
    (bezier c p1 p2 p3 p4 t).1 = bezierCompute p1 p2 p3 p4 t := by
  unfold bezier
  cases hl : cacheLookup c ⟨p1, p2, p3, p4, t⟩ with
  | none => simp [hl]
  | some p =>
      simp only [hl]
      obtain ⟨e, hmem, hk, hp⟩ := cacheLookup_mem hl
      have hvv := hv e hmem
      rw [hp] at hvv
      rw [hvv, hk]
      rfl

/-- `bezier` preserves cache validity. -/
theorem bezier_preserves_valid (c : BezierCache)
    (p1 p2 p3 p4 : Point2D) (t : ℚ) (hv : cacheValid c) :
    cacheValid (bezier c p1 p2 p3 p4 t).2 := by
  unfold bezier
  cases hl : cacheLookup c ⟨p1, p2, p3, p4, t⟩ with
  | none =>
      simp only [hl]
      intro e he
      rcases List.mem_cons.mp he with h | h
      · rw [h]; rfl
      · exact hv e h
  | some p => simp only [hl]; exact hv

/-- Every reachable cache state is valid. -/
theorem cacheReach_valid (c : BezierCache) (h : CacheReach c) : cacheValid c := by
  induction h with
  | empty => exact cacheValid_nil
  | step c p1 p2 p3 p4 t _ ih => exact bezier_preserves_valid c p1 p2 p3 p4 t ih
  | clear c => exact cacheValid_nil

/-- Uninterpreted transcendental functions of the JS `Math` object.  The
state-machine claims hold for every oracle, so nothing is assumed about
these values. -/
structure TrigOracle where
  atan2 : ℚ → ℚ → ℚ
  cos : ℚ → ℚ
  sin : ℚ → ℚ
  pi : ℚ

/-- The four corner literals (`tl`, `tr`, `bl`, `br`). -/
inductive Corner where
  | tl
  | tr
  | bl
  | br
deriving DecidableEq, Repr

/-- JS `corner.includes('r')`: true for the right-edge corners. -/
def Corner.hasR : Corner → Bool
  | .tr => true
  | .br => true
  | _ => false

/-- JS `corner.charAt(0) === 'b'`: true for the bottom corners. -/
def Corner.isBottom : Corner → Bool
  | .bl => true
  | .br => true
  | _ => false

/-- The two display modes of the pagination engine. -/
inductive Display where
  | single
  | double
deriving DecidableEq, Repr

/-- Custom events dispatched by `TurnPage`. -/
inductive TurnEvent where
  | pageChanged (previous current : ℤ)
  | displayChanged (previous current : Display)
  | flipStart (page : ℤ) (corner : Corner)
  | flipMove (page : ℤ) (progress : ℚ)
  | flipComplete (page : ℤ)
deriving DecidableEq, Repr

/-- Errors thrown by `TurnPage` methods. -/
inductive TurnError where
  | invalidPage (n : ℤ)
  | invalidDisplay (s : String)
deriving DecidableEq, Repr

/-- The abstract pagination state (`TurnPage.data`), dropping the DOM
handles: `pageWrap` keeps only the set of page numbers that have a wrapper
element. -/
structure PageData where
  pageWrap : List ℤ
  pageMv : List ℤ
  totalPages : ℤ
  page : ℤ
  display : Display
  disabled : Bool
  done : Bool
deriving DecidableEq, Repr

/-- `TurnPage.view`: the visible page numbers.  The JS code reads
`this.data.page || 1` (0 is falsy) and tests `page % 2` for truthiness. -/
def view (d : PageData) : List ℤ :=
  let page := if d.page = 0 then 1 else d.page
  match d.display with
  | .double => if page % 2 ≠ 0 then [page, page + 1] else [page - 1, page]
  | .single => [page]

/-- `TurnPage.setPage`: throws on a page number outside `[1, totalPages]`,
no-ops when the page is unchanged, otherwise moves the cursor and emits a
`pageChanged` event. -/
def setPage (d : PageData) (n : ℤ) : Except TurnError (PageData × List TurnEvent) :=
  if n < 1 ∨ n > d.totalPages then .error (.invalidPage n)
  else if d.page = n then .ok (d, [])
  else .ok ({ d with page := n }, [.pageChanged d.page n])

/-- `TurnPage.next`: step to `max(view) + 1` when in range, else no-op.
`view` is never empty, so the `none` branch is unreachable. -/
def next (d : PageData) : Except TurnError (PageData × List TurnEvent) :=
  match (view d).max? with
  | none => .ok (d, [])
  | some m => if m + 1 ≤ d.totalPages then setPage d (m + 1) else .ok (d, [])

/-- `TurnPage.previous`: step to `min(view) - 1` when in range, else no-op. -/
def previous (d : PageData) : Except TurnError (PageData × List TurnEvent) :=
  match (view d).min? with
  | none => .ok (d, [])
  | some m => if 1 ≤ m - 1 then setPage d (m - 1) else .ok (d, [])

/-- The runtime membership test `displays.includes(display)` on the
`['single', 'double']` constant. -/
def parseDisplay (s : String) : Option Display :=
  if s = "single" then some .single
  else if s = "double" then some .double
  else none

/-- `TurnPage.setDisplay`: throws on an unrecognized mode, no-ops when the
mode is unchanged, otherwise switches mode (resizing wrappers is a DOM
effect) and emits a `displayChanged` event. -/
def setDisplay (d : PageData) (s : String) : Except TurnError (PageData × List TurnEvent) :=
  match parseDisplay s with
  | none => .error (.invalidDisplay s)
  | some m =>
      if d.display = m then .ok (d, [])
      else .ok ({ d with display := m }, [.displayChanged d.display m])

/-- `TurnPage.getPageWidth`: half the element width in double mode. -/
def getPageWidth (d : PageData) (elementWidth : ℚ) : ℚ :=
  match d.display with
  | .double => elementWidth / 2
  | .single => elementWidth

/-- `TurnPage.addPage`: `page = page || totalPages + 1` (0 and a missing
argument are both falsy), raise `totalPages` when exceeded, and register a
wrapper for the page number. -/
def addPage (d : PageData) (pageArg : Option ℤ) : PageData :=
  let page :=
    match pageArg with
    | none => d.totalPages + 1
    | some p => if p = 0 then d.totalPages + 1 else p
  let d1 := if page > d.totalPages then { d with totalPages := page } else d
  { d1 with pageWrap := if page ∈ d1.pageWrap then d1.pageWrap else page :: d1.pageWrap }

/-- `TurnPage.detectCorner`: fixed corner size 50, no corner policy — the
configured `corners` option of `LeafOptions` is never consulted. -/
def turnDetectCorner (p : Point2D) (width height : ℚ) : Option Corner :=
  let cornerSize : ℚ := 50
  if p.y < cornerSize then
    if p.x < cornerSize then some .tl
    else if p.x > width - cornerSize then some .tr
    else none
  else if p.y > height - cornerSize then
    if p.x < cornerSize then some .bl
    else if p.x > width - cornerSize then some .br
    else none
  else none

/-- A fold position and angle as computed by
`TurnPage.calculateFoldPosition`. -/
structure Fold where
  x : ℚ
  y : ℚ
  angle : ℚ
deriving DecidableEq, Repr

/-- `TurnPage.calculateFoldPosition`: corner-relative offset of the pointer
(`point.x || width` etc. make a 0 coordinate fall back to the corner), with
angle `atan2(y, x)`. -/
def calculateFoldPosition (o : TrigOracle) (corner : Corner) (p : Point2D)
    (width height : ℚ) : Fold :=
  match corner with
  | .tl =>
      let x := p.x
      let y := p.y
      ⟨x, y, o.atan2 y x⟩
  | .tr =>
      let x := (if p.x = 0 then width else p.x) - width
      let y := p.y
      ⟨x, y, o.atan2 y x⟩
  | .bl =>
      let x := p.x
      let y := (if p.y = 0 then height else p.y) - height
      ⟨x, y, o.atan2 y x⟩
  | .br =>
      let x := (if p.x = 0 then width else p.x) - width
      let y := (if p.y = 0 then height else p.y) - height
      ⟨x, y, o.atan2 y x⟩

/-- `TurnPage.startFlip`: no-op when disabled or a drag is already active;
anchors the first (right corner) or last (left corner) page of the view,
checks the wrapper and the adjacent page, then marks the anchored page as
the sole member of the motion set. -/
def startFlip (d : PageData) (corner : Corner) : PageData × List TurnEvent :=
  if d.disabled = true ∨ d.pageMv ≠ [] then (d, [])
  else
    let v := view d
    let pageOpt := if corner.hasR then v.head? else v.getLast?
    match pageOpt with
    | none => (d, [])
    | some page =>
        if page ∈ d.pageWrap then
          let nextPage := if corner.hasR then page + 1 else page - 1
          if nextPage < 1 ∨ nextPage > d.totalPages then (d, [])
          else ({ d with pageMv := [page] }, [.flipStart page corner])
        else (d, [])

/-- `TurnPage.updateFlip`: no-op without an active drag; re-detects the
corner from the live point, recomputes the fold and emits a `flipMove`
event with progress `|fold.x| / pageWidth`.  The abstract state is
unchanged (only DOM styles move). -/
def updateFlip (o : TrigOracle) (d : PageData) (p : Point2D)
    (elementWidth elementHeight : ℚ) : PageData × List TurnEvent :=
  match d.pageMv.head? with
  | none => (d, [])
  | some page =>
      if page ∈ d.pageWrap then
        let width := getPageWidth d elementWidth
        let height := elementHeight
        match turnDetectCorner p elementWidth elementHeight with
        | none => (d, [])
        | some corner =>
            let fold := calculateFoldPosition o corner p width height
            (d, [.flipMove page (|fold.x| / width)])
      else (d, [])

/-- `TurnPage.completeFlip`: no-op without an active drag; in double mode an
even moving page lands on `page - 1` and an odd one on `page + 1` (single
mode stays), `setPage` is called when the landing page is in range, and the
motion set is cleared. -/
def completeFlip (d : PageData) : PageData × List TurnEvent :=
  match d.pageMv.head? with
  | none => (d, [])
  | some page =>
      if page ∈ d.pageWrap then
        let nextPage :=
          match d.display with
          | .double => if page % 2 = 0 then page - 1 else page + 1
          | .single => page
        let step :=
          if 1 ≤ nextPage ∧ nextPage ≤ d.totalPages then
            match setPage d nextPage with
            | .ok r => r
            | .error _ => (d, [])
          else (d, [])
        ({ step.1 with pageMv := [] }, step.2 ++ [.flipComplete page])
      else (d, [])

/-- `TurnPage.destroy`: reset the data record. -/
def destroy (_d : PageData) : PageData :=
  { pageWrap := [], pageMv := [], totalPages := 0, page := 1,
    display := .double, disabled := false, done := false }

/-- The data record as built by the `TurnPage` constructor
(`page: options.page || 1`), before pages are added. -/
def initialData (optPage : ℤ) (optDisplay : Display) : PageData :=
  { pageWrap := [], pageMv := [], totalPages := 0,
    page := if optPage = 0 then 1 else optPage,
    display := optDisplay, disabled := false, done := false }

/-- Pagination states reachable from a freshly constructed engine through
the public operations. -/
inductive TurnReach : PageData → Prop where
  | init (optPage : ℤ) (optDisplay : Display) :
      TurnReach (initialData optPage optDisplay)
  | stepSetPage (d d2 : PageData) (n : ℤ) (evs : List TurnEvent) :
      TurnReach d → setPage d n = .ok (d2, evs) → TurnReach d2
  | stepNext (d d2 : PageData) (evs : List TurnEvent) :
      TurnReach d → next d = .ok (d2, evs) → TurnReach d2
  | stepPrevious (d d2 : PageData) (evs : List TurnEvent) :
      TurnReach d → previous d = .ok (d2, evs) → TurnReach d2
  | stepSetDisplay (d d2 : PageData) (s : String) (evs : List TurnEvent) :
      TurnReach d → setDisplay d s = .ok (d2, evs) → TurnReach d2
  | stepAddPage (d : PageData) (pageArg : Option ℤ) :
      TurnReach d → TurnReach (addPage d pageArg)
  | stepStartFlip (d : PageData) (c : Corner) :
      TurnReach d → TurnReach (startFlip d c).1
  | stepUpdateFlip (o : TrigOracle) (d : PageData) (p : Point2D) (w h : ℚ) :
      TurnReach d → TurnReach (updateFlip o d p w h).1
  | stepCompleteFlip (d : PageData) :
      TurnReach d → TurnReach (completeFlip d).1
  | stepDestroy (d : PageData) :
      TurnReach d → TurnReach (destroy d)
  | stepMarkDone (d : PageData) :
      TurnReach d → TurnReach { d with done := true }

/-- Configuration options of the single-surface engine (`FlipPage`).  The
`corners` option is kept as a string to embed the default branch of the
switch statement. -/
structure FlipOptions where
  corners : String
  cornerSize : ℚ
  gradients : Bool
  duration : ℚ
  acceleration : Bool
deriving DecidableEq, Repr

/-- The allowed-corner list resolved in `FlipPage.detectCorner` from the
`corners` option (any unrecognized value falls back to forward). -/
def allowedCorners (corners : String) : List Corner :=
  if corners = "forward" then [.br, .tr]
  else if corners = "backward" then [.bl, .tl]
  else if corners = "all" then [.tl, .bl, .tr, .br]
  else [.br, .tr]

/-- `FlipPage.detectCorner`: zone hit testing with strict inequalities,
filtered by the allowed-corner list.  `!cornerSize` (0 is falsy) yields no
corner. -/
def flipDetectCorner (opts : FlipOptions) (p : Point2D) (width height : ℚ) :
    Option Corner :=
  if opts.cornerSize = 0 then none
  else
    let allowed := allowedCorners opts.corners
    let cs := opts.cornerSize
    if p.y < cs then
      if p.x < cs ∧ Corner.tl ∈ allowed then some .tl
      else if p.x > width - cs ∧ Corner.tr ∈ allowed then some .tr
      else none
    else if p.y > height - cs then
      if p.x < cs ∧ Corner.bl ∈ allowed then some .bl
      else if p.x > width - cs ∧ Corner.br ∈ allowed then some .br
      else none
    else none

/-- The value assigned to the folding page style by
`FlipPage.applyTransform`: a CSS `matrix`, a CSS `matrix3d`, or `none`
(used by `completeFlip`), carrying the list of numeric arguments. -/
inductive CssTransform where
  | unset
  | neutral
  | matrix (args : List ℚ)
  | matrix3d (args : List ℚ)
deriving DecidableEq, Repr

/-- The six arguments of the 2D matrix built by `FlipPage.applyTransform`:
`[cos angle, sin angle, -sin angle, cos angle, fold.x, fold.y]`. -/
def matrixArgs (o : TrigOracle) (angle fx fy : ℚ) : List ℚ :=
  [o.cos angle, o.sin angle, -(o.sin angle), o.cos angle, fx, fy]

/-- `FlipPage.applyTransform`: with acceleration the code appends the five
literals `0,0,0,0,1` to the six 2D arguments inside a `matrix3d(...)`
call; without acceleration it emits `matrix(...)`. -/
def applyTransform (o : TrigOracle) (opts : FlipOptions) (fold : Point2D)
    (angle : ℚ) : CssTransform :=
  if opts.acceleration then
    .matrix3d (matrixArgs o angle fold.x fold.y ++ [0, 0, 0, 0, 1])
  else
    .matrix (matrixArgs o angle fold.x fold.y)

/-- Modelled from the spec: the well-formed 16-component `matrix3d`
extension of the 2D affine `matrix(a, b, c, d, e, f)` — zeros in the added
translation/scale entries and unit scale on the new diagonal — which the
claim says the accelerated path produces. -/
def cssMatrix3dOfMatrix (a b c d e f : ℚ) : List ℚ :=
  [a, b, 0, 0, c, d, 0, 0, 0, 0, 1, 0, e, f, 0, 1]

/-- Custom events dispatched by `FlipPage`. -/
inductive FlipEvent where
  | flipstart (p : Point2D) (corner : Corner)
  | flipend
deriving DecidableEq, Repr

/-- The abstract state of a `FlipPage` instance: the interaction flags, the
stored session point with its corner, and the last transform applied to the
folding page. -/
structure FlipState where
  opts : FlipOptions
  isTurning : Bool
  isDisabled : Bool
  point : Option (Point2D × Corner)
  transform : CssTransform
deriving DecidableEq, Repr

/-- `FlipPage.getDefaultCornerPoint`: the corner point itself. -/
def getDefaultCornerPoint (corner : Corner) (width height : ℚ) : Point2D :=
  match corner with
  | .tl => ⟨0, 0⟩
  | .tr => ⟨width, 0⟩
  | .bl => ⟨0, height⟩
  | .br => ⟨width, height⟩

/-- `FlipPage.updateFlip`: recompute the fold from the stored session point
and apply the transform; angle gains `PI` for bottom corners; fold origin is
`(width - cos(angle) * width, height - sin(angle) * height)`. -/
def flipUpdateFlip (o : TrigOracle) (s : FlipState) (p : Point2D)
    (width height : ℚ) : FlipState :=
  match s.point with
  | none => s
  | some (startPt, corner) =>
      let angle0 := o.atan2 (p.y - startPt.y) (p.x - startPt.x)
      let angle := if corner.isBottom then angle0 + o.pi else angle0
      let fold : Point2D := ⟨width - o.cos angle * width, height - o.sin angle * height⟩
      { s with transform := applyTransform o s.opts fold angle }

/-- `FlipPage.handleStart`: ignored while disabled or turning; otherwise a
detected corner opens the session, sets `isTurning` and emits `flipstart`. -/
def handleStart (s : FlipState) (p : Point2D) (width height : ℚ) :
    FlipState × List FlipEvent :=
  if s.isDisabled = true ∨ s.isTurning = true then (s, [])
  else
    match flipDetectCorner s.opts p width height with
    | none => (s, [])
    | some corner =>
        ({ s with point := some (p, corner), isTurning := true },
         [.flipstart p corner])

/-- `FlipPage.completeFlip`: animate the folding page back to the neutral
transform (the transition-duration bookkeeping is a DOM effect). -/
def flipCompleteFlip (s : FlipState) : FlipState :=
  { s with transform := .neutral }

/-- `FlipPage.handleEnd`: ignored without an open session; closes the
session, runs `completeFlip` and emits `flipend`. -/
def handleEnd (s : FlipState) : FlipState × List FlipEvent :=
  if s.point = none ∨ s.isTurning = false then (s, [])
  else
    let s1 := flipCompleteFlip { s with isTurning := false }
    ({ s1 with point := none }, [.flipend])

/-- `FlipPage.flip`: ignored while disabled or turning; synthesizes the
corner point, stores it as the session point, sets `isTurning` and calls
`updateFlip` with the same point.  It does not call `completeFlip` and does
not clear `isTurning`. -/
def flip (o : TrigOracle) (s : FlipState) (corner : Corner)
    (width height : ℚ) : FlipState :=
  if s.isDisabled = true ∨ s.isTurning = true then s
  else
    let p := getDefaultCornerPoint corner width height
    let s1 := { s with point := some (p, corner), isTurning := true }
    flipUpdateFlip o s1 p width height

/-- The angle `updateFlip` computes when start and current point coincide
(the situation `flip` creates): `atan2(0, 0)`, plus `PI` for bottom
corners. -/
def flipAngleAtCorner (o : TrigOracle) (corner : Corner) : ℚ :=
  if corner.isBottom then o.atan2 0 0 + o.pi else o.atan2 0 0

/-- The fold origin `updateFlip` computes at zero pointer displacement. -/
def flipFoldAtCorner (o : TrigOracle) (corner : Corner) (width height : ℚ) :
    Point2D :=
  ⟨width - o.cos (flipAngleAtCorner o corner) * width,
   height - o.sin (flipAngleAtCorner o corner) * height⟩

/-- The state resulting from a `TurnPage` call that may throw: a thrown
exception leaves the state as it was. -/
def exceptState (d : PageData) (r : Except TurnError (PageData × List TurnEvent)) :
    PageData :=
  match r with
  | .ok (d2, _) => d2
  | .error _ => d

/-- Whether a `TurnPage` call returned normally. -/
def isOkResult (r : Except TurnError (PageData × List TurnEvent)) : Bool :=
  match r with
  | .ok _ => true
  | .error _ => false

/-- The state after `setPage` (unchanged when it throws). -/
def setPageState (d : PageData) (n : ℤ) : PageData :=
  exceptState d (setPage d n)

/-- The state after `setDisplay` (unchanged when it throws). -/
def setDisplayState (d : PageData) (s : String) : PageData :=
  exceptState d (setDisplay d s)

/-- The events emitted by `setDisplay` (none when it throws). -/
def setDisplayEvents (d : PageData) (s : String) : List TurnEvent :=
  match setDisplay d s with
  | .ok (_, evs) => evs
  | .error _ => []

/-- A four-page double-mode book resting at page 1 with all wrappers
present (the state the README example produces). -/
def book4 : PageData :=
  { pageWrap := [1, 2, 3, 4], pageMv := [], totalPages := 4, page := 1,
    display := .double, disabled := false, done := true }

/-- The book after `next()`. -/
def book4AfterNext : PageData := exceptState book4 (next book4)

/-- The book after `next()` then `previous()`. -/
def book4AfterNextPrev : PageData :=
  exceptState book4AfterNext (previous book4AfterNext)

/-- A book with a drag in progress on page 1. -/
def busyBook : PageData :=
  { pageWrap := [1, 2], pageMv := [1], totalPages := 2, page := 1,
    display := .double, disabled := false, done := true }

/-- The default `FlipPage` options record (`defaultFlipOptions`). -/
def defaultFlipOptions : FlipOptions :=
  { corners := "forward", cornerSize := 100, gradients := true,
    duration := 600, acceleration := true }

/-- The default options with the backward corner preset. -/
def backwardOpts : FlipOptions :=
  { defaultFlipOptions with corners := "backward" }

/-- A concrete trig oracle used to instantiate oracle-generic theorems. -/
def constOracle : TrigOracle :=
  { atan2 := fun _ _ => 0, cos := fun _ => 1, sin := fun _ => 0, pi := 3 }

/-- An idle `FlipPage` state with the default options. -/
def flipIdle : FlipState :=
  { opts := defaultFlipOptions, isTurning := false, isDisabled := false,
    point := none, transform := .unset }

/-- A `FlipPage` state in the middle of a turn. -/
def turningFlip : FlipState :=
  { opts := defaultFlipOptions, isTurning := true, isDisabled := false,
    point := some (⟨0, 0⟩, Corner.tl), transform := .unset }

/-!  Supporting lemmas about `view` and `setPage`. -/

theorem view_single_eq (d : PageData) (hd : d.display = .single)
    (hz : d.page ≠ 0) : view d = [d.page] := by
  simp [view, hd, hz]

theorem view_double_eq (d : PageData) (hd : d.display = .double)
    (hz : d.page ≠ 0) :
    view d = if d.page % 2 = 0 then [d.page - 1, d.page] else [d.page, d.page + 1] := by
  by_cases hm : d.page % 2 = 0 <;> simp [view, hd, hz, hm]

theorem setPage_in_range (d : PageData) (p : ℤ) (h1 : 1 ≤ p)
    (h2 : p ≤ d.totalPages) :
    setPage d p = .ok (setPageState d p, if d.page = p then [] else [.pageChanged d.page p]) ∧
    (setPageState d p).page = p ∧
    (setPageState d p).display = d.display := by
  have hr : ¬(p < 1 ∨ p > d.totalPages) := by omega
  by_cases hp : d.page = p <;>
    simp [setPage, setPageState, exceptState, hr, hp]

/-- C1: for every page `p` with `1 ≤ p ≤ totalPages`, `setPage p` succeeds
and the resulting `view` contains `p`; in single mode the view is exactly
`[p]`, and in double mode it is the adjacent pair `[p, p+1]` for odd `p`
and `[p-1, p]` for even `p`, whose first element is odd. -/
theorem claim1_setPage_view (d : PageData) (p : ℤ)
    (h1 : 1 ≤ p) (h2 : p ≤ d.totalPages) :
    isOkResult (setPage d p) = true ∧
    (setPageState d p).page = p ∧
    p ∈ view (setPageState d p) ∧
    ((setPageState d p).display = .single → view (setPageState d p) = [p]) ∧
    ((setPageState d p).display = .double →
      view (setPageState d p) =
        [(if p % 2 = 0 then p - 1 else p), (if p % 2 = 0 then p - 1 else p) + 1] ∧
      (if p % 2 = 0 then p - 1 else p) % 2 = 1) := by
  obtain ⟨hok, hpage, hdisp⟩ := setPage_in_range d p h1 h2
  have hz : (setPageState d p).page ≠ 0 := by omega
  refine ⟨by rw [hok]; rfl, hpage, ?_, ?_, ?_⟩
  · -- membership
    rcases hd : (setPageState d p).display with _ | _
    · rw [view_single_eq _ hd hz, hpage]; simp
    · rw [view_double_eq _ hd hz, hpage]
      by_cases hm : p % 2 = 0 <;> simp [hm]
  · intro hd
    rw [view_single_eq _ hd hz, hpage]
  · intro hd
    rw [view_double_eq _ hd hz, hpage]
    constructor
    · by_cases hm : p % 2 = 0 <;> simp [hm]
    · by_cases hm : p % 2 = 0 <;> simp [hm] <;> omega

/-- Witness for C1 at a concrete even page of a four-page double-mode
book. -/
theorem claim1_witness :
    isOkResult (setPage book4 2) = true ∧
    (setPageState book4 2).page = 2 ∧
    (2 : ℤ) ∈ view (setPageState book4 2) ∧
    ((setPageState book4 2).display = .single → view (setPageState book4 2) = [2]) ∧
    ((setPageState book4 2).display = .double →
      view (setPageState book4 2) =
        [(if (2 : ℤ) % 2 = 0 then 2 - 1 else 2), (if (2 : ℤ) % 2 = 0 then 2 - 1 else 2) + 1] ∧
      (if (2 : ℤ) % 2 = 0 then 2 - 1 else (2 : ℤ)) % 2 = 1) :=
  claim1_setPage_view book4 2 (by decide) (by decide)

/-- C2 counterexample: in the double-mode four-page book the scenario runs
`view = [1,2]`, `next()` lands on page 3 with `view = [3,4]`, but the
subsequent `previous()` targets `min([3,4]) - 1 = 2`, so the current page
is 2 — not 1 as the claim states. -/
theorem claim2_counterexample :
    view book4 = [1, 2] ∧
    book4AfterNext.page = 3 ∧ view book4AfterNext = [3, 4] ∧
    book4AfterNextPrev.page = 2 ∧ ¬book4AfterNextPrev.page = 1 := by decide

/-- C2 amended: the scenario as the code runs it — after `previous()` the
current page is 2, the even member of the restored spread, and the view is
again `[1, 2]`. -/
theorem claim2_amended_scenario :
    view book4 = [1, 2] ∧
    isOkResult (next book4) = true ∧
    book4AfterNext.page = 3 ∧ view book4AfterNext = [3, 4] ∧
    isOkResult (previous book4AfterNext) = true ∧
    book4AfterNextPrev.page = 2 ∧ view book4AfterNextPrev = [1, 2] := by decide

/-- C3: `setPage(n)` for `n` outside `[1, totalPages]` throws the
out-of-range error before touching any state, so the pagination state seen
by the caller is exactly the state before the call (the embedding returns
`error` and no successor state or events). -/
theorem claim3_setPage_out_of_range (d : PageData) (n : ℤ)
    (h : n < 1 ∨ n > d.totalPages) :
    setPage d n = .error (.invalidPage n) ∧ setPageState d n = d := by
  refine ⟨?_, ?_⟩ <;> simp [setPage, setPageState, exceptState, h]

/-- Witness for C3: `setPage 0` and the state is untouched. -/
theorem claim3_witness :
    setPage book4 0 = .error (.invalidPage 0) ∧ setPageState book4 0 = book4 :=
  claim3_setPage_out_of_range book4 0 (by decide)

/-- C9: `setDisplay` with a recognized mode succeeds, emits at most one
`displayChanged` event, and a second call with the same mode is a no-op:
same state, no further event. -/
theorem claim9_setDisplay_idempotent (d : PageData) (s : String) (m : Display)
    (h : parseDisplay s = some m) :
    setDisplay d s = .ok (setDisplayState d s, setDisplayEvents d s) ∧
    (setDisplayEvents d s).length ≤ 1 ∧
    setDisplay (setDisplayState d s) s = .ok (setDisplayState d s, []) := by
  by_cases hd : d.display = m
  · refine ⟨?_, ?_, ?_⟩ <;>
      simp [setDisplay, setDisplayState, setDisplayEvents, exceptState, h, hd]
  · refine ⟨?_, ?_, ?_⟩ <;>
      simp [setDisplay, setDisplayState, setDisplayEvents, exceptState, h, hd]

/-- Witness for C9: switching the book to single mode twice. -/
theorem claim9_witness :
    setDisplay book4 "single" = .ok (setDisplayState book4 "single", setDisplayEvents book4 "single") ∧
    (setDisplayEvents book4 "single").length ≤ 1 ∧
    setDisplay (setDisplayState book4 "single") "single" =
      .ok (setDisplayState book4 "single", []) :=
  claim9_setDisplay_idempotent book4 "single" Display.single (by decide)

/-!  Preservation of the motion set across every pagination operation. -/

theorem setPage_ok_pageMv {d d2 : PageData} {n : ℤ} {evs : List TurnEvent}
    (h : setPage d n = .ok (d2, evs)) : d2.pageMv = d.pageMv := by
  unfold setPage at h
  split at h
  · simp at h
  · split at h <;> · simp at h; rw [← h.1]

theorem next_ok_pageMv {d d2 : PageData} {evs : List TurnEvent}
    (h : next d = .ok (d2, evs)) : d2.pageMv = d.pageMv := by
  unfold next at h
  split at h
  · simp at h; rw [← h.1]
  · split at h
    · exact setPage_ok_pageMv h
    · simp at h; rw [← h.1]

theorem previous_ok_pageMv {d d2 : PageData} {evs : List TurnEvent}
    (h : previous d = .ok (d2, evs)) : d2.pageMv = d.pageMv := by
  unfold previous at h
  split at h
  · simp at h; rw [← h.1]
  · split at h
    · exact setPage_ok_pageMv h
    · simp at h; rw [← h.1]

theorem setDisplay_ok_pageMv {d d2 : PageData} {s : String} {evs : List TurnEvent}
    (h : setDisplay d s = .ok (d2, evs)) : d2.pageMv = d.pageMv := by
  unfold setDisplay at h
  split at h
  · simp at h
  · split at h <;> · simp at h; rw [← h.1]

theorem addPage_pageMv (d : PageData) (pageArg : Option ℤ) :
    (addPage d pageArg).pageMv = d.pageMv := by
  unfold addPage
  dsimp only
  split <;> rfl

theorem startFlip_pageMv (d : PageData) (c : Corner) :
    (startFlip d c).1.pageMv = d.pageMv ∨ (startFlip d c).1.pageMv.length = 1 := by
  unfold startFlip
  split
  · left; rfl
  · split
    · dsimp only
      split
      · left; rfl
      · split
        · split
          · left; rfl
          · right; rfl
        · left; rfl
    · dsimp only
      split
      · left; rfl
      · split
        · split
          · left; rfl
          · right; rfl
        · left; rfl

theorem updateFlip_state (o : TrigOracle) (d : PageData) (p : Point2D)
    (w h : ℚ) : (updateFlip o d p w h).1 = d := by
  unfold updateFlip
  split
  · rfl
  · split
    · split
      · rfl
      · rfl
    · rfl

theorem completeFlip_pageMv (d : PageData) :
    (completeFlip d).1.pageMv = d.pageMv ∨ (completeFlip d).1.pageMv = [] := by
  unfold completeFlip
  split
  · left; rfl
  · split
    · right; rfl
    · left; rfl

theorem turnReach_pageMv_le_one (d : PageData) (h : TurnReach d) :
    d.pageMv.length ≤ 1 := by
  induction h with
  | init optPage optDisplay => simp [initialData]
  | stepSetPage d d2 n evs _ hstep ih => rw [setPage_ok_pageMv hstep]; exact ih
  | stepNext d d2 evs _ hstep ih => rw [next_ok_pageMv hstep]; exact ih
  | stepPrevious d d2 evs _ hstep ih => rw [previous_ok_pageMv hstep]; exact ih
  | stepSetDisplay d d2 s evs _ hstep ih => rw [setDisplay_ok_pageMv hstep]; exact ih
  | stepAddPage d pageArg _ ih => rw [addPage_pageMv]; exact ih
  | stepStartFlip d c _ ih =>
      rcases startFlip_pageMv d c with h1 | h1
      · rw [h1]; exact ih
      · exact le_of_eq h1
  | stepUpdateFlip o d p w hq _ ih => rw [updateFlip_state]; exact ih
  | stepCompleteFlip d _ ih =>
      rcases completeFlip_pageMv d with h1 | h1
      · rw [h1]; exact ih
      · rw [h1]; simp
  | stepDestroy d _ _ => simp [destroy]
  | stepMarkDone d _ ih => exact ih

theorem startFlip_busy_noop (d : PageData) (c : Corner) (h : d.pageMv ≠ []) :
    startFlip d c = (d, []) := by
  unfold startFlip
  rw [if_pos (Or.inr h)]

theorem handleStart_turning_noop (s : FlipState) (p : Point2D) (w h : ℚ)
    (ht : s.isTurning = true) : handleStart s p w h = (s, []) := by
  unfold handleStart
  rw [if_pos (Or.inr ht)]

/-- C6: at most one fold session per engine — in every reachable pagination
state the motion set `pageMv` has length 0 or 1, `startFlip` leaves the
state (and motion set) unchanged while a drag is active, and the
single-surface engine ignores `start` while `isTurning` is set. -/
theorem claim6_single_session :
    (∀ d : PageData, TurnReach d → d.pageMv.length ≤ 1) ∧
    (∀ (d : PageData) (c : Corner), d.pageMv ≠ [] → startFlip d c = (d, [])) ∧
    (∀ (s : FlipState) (p : Point2D) (w h : ℚ), s.isTurning = true →
      handleStart s p w h = (s, [])) :=
  ⟨turnReach_pageMv_le_one, startFlip_busy_noop, handleStart_turning_noop⟩

/-- Witness for C6 at a freshly constructed engine, a mid-drag book and a
mid-turn flip state. -/
theorem claim6_witness :
    (initialData 1 Display.double).pageMv.length ≤ 1 ∧
    startFlip busyBook Corner.tl = (busyBook, []) ∧
    handleStart turningFlip ⟨0, 0⟩ 300 300 = (turningFlip, []) :=
  ⟨claim6_single_session.1 _ (TurnReach.init 1 Display.double),
   claim6_single_session.2.1 busyBook Corner.tl (by decide),
   claim6_single_session.2.2 turningFlip ⟨0, 0⟩ 300 300 rfl⟩

/-- C4 counterexample: the pagination engine detects corners with no
allowed-corner policy at all — at the point `(199, 10)` of a `200 × 200`
surface `TurnPage.detectCorner` returns `tr`, which is outside the
backward allowed set, and no configuration can prevent it because the
function never reads the `corners` option. -/
theorem claim4_counterexample :
    turnDetectCorner ⟨199, 10⟩ 200 200 = some Corner.tr ∧
    Corner.tr ∉ allowedCorners "backward" := by
  constructor
  · norm_num [turnDetectCorner]
  · decide

/-- C4 amended: with the backward preset the single-surface engine only
ever detects a corner in the backward allowed set, so never `tr` or `br`;
the pagination engine applies no corner policy. -/
theorem claim4_flip_backward_only (opts : FlipOptions) (p : Point2D)
    (w h : ℚ) (c : Corner) (hb : opts.corners = "backward")
    (hc : flipDetectCorner opts p w h = some c) :
    c ∈ allowedCorners "backward" ∧ c ≠ Corner.tr ∧ c ≠ Corner.br := by
  unfold flipDetectCorner at hc
  rw [hb] at hc
  dsimp only at hc
  split at hc
  · exact absurd hc (by simp)
  · split at hc
    · split at hc
      · cases hc
        exact ⟨by decide, by decide, by decide⟩
      · split at hc
        · rename_i hcond
          exact absurd hcond.2 (by decide)
        · exact absurd hc (by simp)
    · split at hc
      · split at hc
        · cases hc
          exact ⟨by decide, by decide, by decide⟩
        · split at hc
          · rename_i hcond
            exact absurd hcond.2 (by decide)
          · exact absurd hc (by simp)
      · exact absurd hc (by simp)

/-- Witness for C4 amended: the top-left zone of a backward-configured
surface detects `tl`, which is in the backward set. -/
theorem claim4_witness :
    Corner.tl ∈ allowedCorners "backward" ∧
    Corner.tl ≠ Corner.tr ∧ Corner.tl ≠ Corner.br :=
  claim4_flip_backward_only backwardOpts ⟨10, 10⟩ 500 500 Corner.tl rfl (by decide)

/-- A `flip` call on a state already turning is ignored. -/
theorem flip_turning_noop (o : TrigOracle) (s : FlipState) (c : Corner)
    (w h : ℚ) (ht : s.isTurning = true) : flip o s c w h = s := by
  unfold flip
  rw [if_pos (Or.inr ht)]

/-- `updateFlip` only rewrites the transform. -/
theorem flipUpdateFlip_fields (o : TrigOracle) (s : FlipState) (p : Point2D)
    (w h : ℚ) :
    (flipUpdateFlip o s p w h).point = s.point ∧
    (flipUpdateFlip o s p w h).isTurning = s.isTurning ∧
    (flipUpdateFlip o s p w h).isDisabled = s.isDisabled := by
  unfold flipUpdateFlip
  split
  · exact ⟨rfl, rfl, rfl⟩
  · exact ⟨rfl, rfl, rfl⟩

/-- C5 counterexample: after `flip('tl')` on an idle default surface the
session is still open (`isTurning` is true), so a subsequent `flip` or
`start` is rejected — the claim that the settle path runs and a new
session is accepted is false. -/
theorem claim5_counterexample :
    (flip constOracle flipIdle Corner.tl 300 300).isTurning = true ∧
    flip constOracle (flip constOracle flipIdle Corner.tl 300 300) Corner.tr 300 300 =
      flip constOracle flipIdle Corner.tl 300 300 ∧
    handleStart (flip constOracle flipIdle Corner.tl 300 300) ⟨299, 1⟩ 300 300 =
      (flip constOracle flipIdle Corner.tl 300 300, []) := by
  have hturn : (flip constOracle flipIdle Corner.tl 300 300).isTurning = true := by
    unfold flip
    rw [if_neg (by simp [flipIdle])]
    exact (flipUpdateFlip_fields constOracle
      { flipIdle with point := some (getDefaultCornerPoint Corner.tl 300 300, Corner.tl),
                      isTurning := true }
      (getDefaultCornerPoint Corner.tl 300 300) 300 300).2.1
  exact ⟨hturn, flip_turning_noop constOracle _ Corner.tr 300 300 hturn,
    handleStart_turning_noop _ ⟨299, 1⟩ 300 300 hturn⟩

/-- C5 amended: `flip(corner)` on an idle enabled surface synthesizes the
corner point as both the start and the current point, stores it with the
corner as the session point, applies the fold update for zero pointer
displacement — but does not run the settle/completion path: `isTurning`
stays true and subsequent `flip` or `start` calls are ignored until a
pointer-end event closes the session. -/
theorem claim5_flip_opens_session (o : TrigOracle) (s : FlipState)
    (c c2 : Corner) (w h w2 h2 w3 h3 : ℚ) (p2 : Point2D)
    (hd : s.isDisabled = false) (ht : s.isTurning = false) :
    flip o s c w h =
      flipUpdateFlip o
        { s with point := some (getDefaultCornerPoint c w h, c), isTurning := true }
        (getDefaultCornerPoint c w h) w h ∧
    (flip o s c w h).point = some (getDefaultCornerPoint c w h, c) ∧
    (flip o s c w h).isTurning = true ∧
    (flip o s c w h).transform =
      applyTransform o s.opts (flipFoldAtCorner o c w h) (flipAngleAtCorner o c) ∧
    flip o (flip o s c w h) c2 w2 h2 = flip o s c w h ∧
    handleStart (flip o s c w h) p2 w3 h3 = (flip o s c w h, []) := by
  have hcond : ¬(s.isDisabled = true ∨ s.isTurning = true) := by
    simp [hd, ht]
  have heq : flip o s c w h =
      flipUpdateFlip o
        { s with point := some (getDefaultCornerPoint c w h, c), isTurning := true }
        (getDefaultCornerPoint c w h) w h := by
    unfold flip
    rw [if_neg hcond]
  obtain ⟨hpt, htn, _⟩ := flipUpdateFlip_fields o
    { s with point := some (getDefaultCornerPoint c w h, c), isTurning := true }
    (getDefaultCornerPoint c w h) w h
  have hturn : (flip o s c w h).isTurning = true := by rw [heq, htn]
  refine ⟨heq, ?_, hturn, ?_, ?_, ?_⟩
  · rw [heq, hpt]
  · rw [heq]
    unfold flipUpdateFlip
    simp only [sub_self]
    cases hbt : Corner.isBottom c <;>
      simp [flipAngleAtCorner, flipFoldAtCorner, hbt]
  · exact flip_turning_noop o _ c2 w2 h2 hturn
  · exact handleStart_turning_noop _ p2 w3 h3 hturn

/-- Witness for C5 amended at the concrete idle surface. -/
theorem claim5_witness :
    flip constOracle flipIdle Corner.tl 300 300 =
      flipUpdateFlip constOracle
        { flipIdle with point := some (getDefaultCornerPoint Corner.tl 300 300, Corner.tl),
                        isTurning := true }
        (getDefaultCornerPoint Corner.tl 300 300) 300 300 ∧
    (flip constOracle flipIdle Corner.tl 300 300).point =
      some (getDefaultCornerPoint Corner.tl 300 300, Corner.tl) ∧
    (flip constOracle flipIdle Corner.tl 300 300).isTurning = true ∧
    (flip constOracle flipIdle Corner.tl 300 300).transform =
      applyTransform constOracle flipIdle.opts
        (flipFoldAtCorner constOracle Corner.tl 300 300)
        (flipAngleAtCorner constOracle Corner.tl) ∧
    flip constOracle (flip constOracle flipIdle Corner.tl 300 300) Corner.br 10 10 =
      flip constOracle flipIdle Corner.tl 300 300 ∧
    handleStart (flip constOracle flipIdle Corner.tl 300 300) ⟨5, 5⟩ 10 10 =
      (flip constOracle flipIdle Corner.tl 300 300, []) :=
  claim5_flip_opens_session constOracle flipIdle Corner.tl Corner.br
    300 300 10 10 10 10 ⟨5, 5⟩ rfl rfl

/-- The cubic at `t = 0` collapses to the rounded first control point. -/
theorem bezierCompute_zero (p1 p2 p3 p4 : Point2D) :
    bezierCompute p1 p2 p3 p4 0 = createPoint2D p1.x p1.y := by
  unfold bezierCompute
  norm_num

/-- The cubic at `t = 1` collapses to the rounded last control point. -/
theorem bezierCompute_one (p1 p2 p3 p4 : Point2D) :
    bezierCompute p1 p2 p3 p4 1 = createPoint2D p4.x p4.y := by
  unfold bezierCompute
  norm_num

/-- C7 counterexample: for `p1 = (0.0001, 0)` the three-decimal rounding in
`createPoint2D` sends the coordinate to 0, so `bezier` at `t = 0` does not
return `p1` exactly; symmetrically at `t = 1` for `p4`. -/
theorem claim7_counterexample :
    (bezier [] ⟨1/10000, 0⟩ ⟨0, 0⟩ ⟨0, 0⟩ ⟨0, 0⟩ 0).1 ≠ (⟨1/10000, 0⟩ : Point2D) ∧
    (bezier [] ⟨0, 0⟩ ⟨0, 0⟩ ⟨0, 0⟩ ⟨1/10000, 0⟩ 1).1 ≠ (⟨1/10000, 0⟩ : Point2D) := by
  constructor <;>
    norm_num [bezier, cacheLookup, bezierCompute, createPoint2D, jsRound,
      Point2D.mk.injEq]

/-- C7 amended: on every valid cache state, `bezier` at `t = 0` returns
`createPoint2D p1.x p1.y` — the first control point with each coordinate
rounded to three decimals, hence not `p1` exactly in general — and at
`t = 1` returns `createPoint2D p4.x p4.y`. -/
theorem claim7_bezier_endpoints (c : BezierCache) (p1 p2 p3 p4 : Point2D)
    (hv : cacheValid c) :
    (bezier c p1 p2 p3 p4 0).1 = createPoint2D p1.x p1.y ∧
    (bezier c p1 p2 p3 p4 1).1 = createPoint2D p4.x p4.y := by
  constructor
  · rw [bezier_eq_compute_of_valid c p1 p2 p3 p4 0 hv]
    exact bezierCompute_zero p1 p2 p3 p4
  · rw [bezier_eq_compute_of_valid c p1 p2 p3 p4 1 hv]
    exact bezierCompute_one p1 p2 p3 p4

/-- Witness for C7 amended on the empty cache. -/
theorem claim7_witness :
    (bezier [] ⟨1, 2⟩ ⟨3, 4⟩ ⟨5, 6⟩ ⟨7, 8⟩ 0).1 = createPoint2D 1 2 ∧
    (bezier [] ⟨1, 2⟩ ⟨3, 4⟩ ⟨5, 6⟩ ⟨7, 8⟩ 1).1 = createPoint2D 7 8 :=
  claim7_bezier_endpoints [] ⟨1, 2⟩ ⟨3, 4⟩ ⟨5, 6⟩ ⟨7, 8⟩ cacheValid_nil

/-- C10: the memoization cache is observationally transparent — on every
cache state the program can reach, `bezier` returns exactly the direct
(uncached) evaluation of the rounded cubic, two calls with equal inputs
from any two reachable cache states agree, and the updated cache is again
reachable. -/
theorem claim10_memo_transparent (c c2 : BezierCache) (p1 p2 p3 p4 : Point2D)
    (t : ℚ) (h : CacheReach c) (h2 : CacheReach c2) :
    (bezier c p1 p2 p3 p4 t).1 = bezierCompute p1 p2 p3 p4 t ∧
    (bezier c p1 p2 p3 p4 t).1 = (bezier c2 p1 p2 p3 p4 t).1 ∧
    CacheReach (bezier c p1 p2 p3 p4 t).2 := by
  have e1 := bezier_eq_compute_of_valid c p1 p2 p3 p4 t (cacheReach_valid c h)
  have e2 := bezier_eq_compute_of_valid c2 p1 p2 p3 p4 t (cacheReach_valid c2 h2)
  exact ⟨e1, by rw [e1, e2], CacheReach.step c p1 p2 p3 p4 t h⟩

/-- Witness for C10: a fresh call and a repeated call against the cache
the first call filled return the same point. -/
theorem claim10_witness :
    (bezier [] ⟨1, 2⟩ ⟨3, 4⟩ ⟨5, 6⟩ ⟨7, 8⟩ 2).1 =
      bezierCompute ⟨1, 2⟩ ⟨3, 4⟩ ⟨5, 6⟩ ⟨7, 8⟩ 2 ∧
    (bezier [] ⟨1, 2⟩ ⟨3, 4⟩ ⟨5, 6⟩ ⟨7, 8⟩ 2).1 =
      (bezier (bezier [] ⟨1, 2⟩ ⟨3, 4⟩ ⟨5, 6⟩ ⟨7, 8⟩ 2).2 ⟨1, 2⟩ ⟨3, 4⟩ ⟨5, 6⟩ ⟨7, 8⟩ 2).1 ∧
    CacheReach (bezier [] ⟨1, 2⟩ ⟨3, 4⟩ ⟨5, 6⟩ ⟨7, 8⟩ 2).2 :=
  claim10_memo_transparent [] (bezier [] ⟨1, 2⟩ ⟨3, 4⟩ ⟨5, 6⟩ ⟨7, 8⟩ 2).2
    ⟨1, 2⟩ ⟨3, 4⟩ ⟨5, 6⟩ ⟨7, 8⟩ 2 CacheReach.empty
    (CacheReach.step [] ⟨1, 2⟩ ⟨3, 4⟩ ⟨5, 6⟩ ⟨7, 8⟩ 2 CacheReach.empty)

/-- C8 (code bug): with acceleration requested the transform builder emits
a `matrix3d` with only 11 numeric arguments — the six 2D entries followed
by the five literals `0,0,0,0,1` — which is not the well-formed
16-component 4x4 extension of `matrix(cos, sin, -sin, cos, foldX, foldY)`
that the specification describes and that CSS requires. -/
theorem claim8_matrix3d_malformed (o : TrigOracle) (opts : FlipOptions)
    (fold : Point2D) (angle a b c d e f : ℚ)
    (ha : opts.acceleration = true) :
    applyTransform o opts fold angle =
      .matrix3d (matrixArgs o angle fold.x fold.y ++ [0, 0, 0, 0, 1]) ∧
    (matrixArgs o angle fold.x fold.y ++ [0, 0, 0, 0, 1]).length = 11 ∧
    (cssMatrix3dOfMatrix a b c d e f).length = 16 ∧
    matrixArgs o angle fold.x fold.y ++ [0, 0, 0, 0, 1] ≠
      cssMatrix3dOfMatrix a b c d e f := by
  refine ⟨?_, ?_, ?_, ?_⟩
  · simp [applyTransform, ha]
  · simp [matrixArgs]
  · simp [cssMatrix3dOfMatrix]
  · intro hEq
    have hlen := congrArg List.length hEq
    simp [matrixArgs, cssMatrix3dOfMatrix] at hlen

/-- Witness for C8 at the default options and a zero fold/angle. -/
theorem claim8_witness :
    applyTransform constOracle defaultFlipOptions ⟨0, 0⟩ 0 =
      .matrix3d (matrixArgs constOracle 0 0 0 ++ [0, 0, 0, 0, 1]) ∧
    (matrixArgs constOracle 0 0 0 ++ [0, 0, 0, 0, 1]).length = 11 ∧
    (cssMatrix3dOfMatrix 1 0 0 1 0 0).length = 16 ∧
    matrixArgs constOracle 0 0 0 ++ [0, 0, 0, 0, 1] ≠
      cssMatrix3dOfMatrix 1 0 0 1 0 0 :=
  claim8_matrix3d_malformed constOracle defaultFlipOptions ⟨0, 0⟩ 0 1 0 0 1 0 0 rfl

end Leaf
